import Mathlib

/-!
Shallow embedding of the BookReviewAPI backend (Node/Express/Mongoose) and
proofs checking the natural-language specification against it.

The embedding follows the controller sources under src/backend/src (the file
app.js concatenates server.js, controllers/bookController.js and
controllers/reviewController.js), the route files and validation middleware,
and the auth controller.  The Mongoose model files (models/User.js,
models/Book.js, models/Review.js) are part of the repository but are not
present under src/; the pieces of behaviour that live there (schema defaults,
the rating-aggregation hook, bcrypt password comparison) are modelled from the
spec and marked as such in their doc comments.

Documents are modelled as Lean structures, collections as lists in insertion
order (Mongoose findOne/findById return the first matching document), ObjectId
values as naturals compared by value (the code compares ids via toString();
Mongoose arrays compare ObjectId elements by value in indexOf).
-/

namespace BookReviewAPI

/-- JavaScript `x || old` for string fields of a request body: an absent field
(`none`, i.e. undefined) and the empty string (falsy) both fall back to the
stored value.  Used by updateBook for title/author/genre/description/publicationDate. -/
def jsOrStr (new : Option String) (old : String) : String :=
  match new with
  | some s => if s = "" then old else s
  | none => old

/-- JavaScript `x !== undefined ? x : old`: any present value, the empty string
included, overwrites.  Used by updateBook for isbn. -/
def jsIfDef (new : Option String) (old : String) : String :=
  match new with
  | some s => s
  | none => old

/-- JavaScript `parseInt(q) || d` on a query parameter: an absent or
non-numeric parameter (`none`) and the number 0 (falsy) fall back to the
default.  Negative inputs are rejected by the validators on the routes that
have them and are outside the model. -/
def jsNumOr (q : Option Nat) (d : Nat) : Nat :=
  match q with
  | some n => if n = 0 then d else n
  | none => d

/-- Case-insensitive character comparison, modelling the `i` flag of the
regular expressions built by the controllers. -/
def ciEq (a b : Char) : Bool := a.toLower == b.toLower

/-- Abstract syntax for the fragment of JavaScript regular expressions that
this development reasons about: literal characters, `.`, one-or-more `+`, and
parenthesised groups.  createBook builds the pattern `^title$` from raw
request strings and searchBooks/getAllBooks pass raw request strings to the
database `$regex` operator, so user input is interpreted under this syntax. -/
inductive RAtom where
  | ch (c : Char)
  | dot
  | grp (g : List RAtom)
  | many1 (a : RAtom)

/-- Metacharacters of JavaScript regular expressions that are outside the
modelled fragment.  A pattern containing one of them is treated as
unrepresentable (parsing fails); every concrete input used in the theorems
below stays inside the fragment. -/
def unsupportedMeta : List Char := ['*', '?', '[', ']', '\x7b', '\x7d', '\\', '|', '^', '$']

/-- All characters with a special meaning in JavaScript regular expressions;
a string free of them is matched purely literally. -/
def regexMeta : List Char := ['.', '+', '(', ')', '*', '?', '[', ']', '\x7b', '\x7d', '\\', '|', '^', '$']

/-- Wrapping of the previous atom by `+`: an error when there is no previous
atom or when it is already wrapped (JavaScript: nothing to repeat). -/
def plusWrap : List RAtom → Option (List RAtom)
  | [] => none
  | RAtom.many1 _ :: _ => none
  | a :: acc2 => some (RAtom.many1 a :: acc2)

/-- Single-pass parse of the modelled regular-expression fragment, one input
character per step (the fuel is exactly the input length plus one).  `acc` is
the reversed sequence of atoms of the group being read and `stack` holds the
accumulators of the enclosing groups: `(` pushes, `)` pops into a group atom,
and input ending with a non-empty stack (an unbalanced `(`), an unmatched `)`,
a `+` with nothing to repeat, or a metacharacter outside the fragment is an
error. -/
def parseAux : Nat → List Char → List RAtom → List (List RAtom) → Option (List RAtom)
  | 0, _, _, _ => none
  | _ + 1, [], acc, [] => some acc.reverse
  | _ + 1, [], _, _ :: _ => none
  | n + 1, c :: rest, acc, stack =>
    if c = '(' then parseAux n rest [] (acc :: stack)
    else if c = ')' then
      match stack with
      | [] => none
      | acc2 :: stack2 => parseAux n rest (RAtom.grp acc.reverse :: acc2) stack2
    else if c = '.' then parseAux n rest (RAtom.dot :: acc) stack
    else if c = '+' then
      match plusWrap acc with
      | none => none
      | some acc2 => parseAux n rest acc2 stack
    else if c ∈ unsupportedMeta then none
    else parseAux n rest (RAtom.ch c :: acc) stack

/-- Model of compiling the pattern string interpolated by the controllers
(JavaScript `new RegExp(p, 'i')`, or the database `$regex` operator on `p`).
`none` models the pattern being rejected (the RegExp constructor throwing, or
the database query failing), which the controllers surface via their catch
blocks as an internal error. -/
def parsePat (p : String) : Option (List RAtom) :=
  parseAux (p.data.length + 1) p.data [] []

/-- One-step-per-call matcher for the modelled fragment, structurally
recursive on a fuel budget so that it evaluates inside the kernel.
`remF fuel gs s` is the list of suffixes of `s` left over after the atom
sequence `gs` consumes a prefix of `s`, comparing case-insensitively.  A group
is inlined into the sequence; `a+` is expanded as one copy of `a` followed by
either the rest or the loop again.  The fuel supplied by `seqRem` below is
generous for every pattern this development evaluates or quantifies over; a
pattern that could exhaust any finite budget (an empty group under `+`)
produces no further match, mirroring the empty-loop cutoff of real engines. -/
def remF : Nat → List RAtom → List Char → List (List Char)
  | 0, _, _ => []
  | fuel + 1, gs, s =>
    match gs with
    | [] => [s]
    | RAtom.ch c :: gs2 =>
      match s with
      | [] => []
      | x :: xs => if ciEq c x then remF fuel gs2 xs else []
    | RAtom.dot :: gs2 =>
      match s with
      | [] => []
      | _ :: xs => remF fuel gs2 xs
    | RAtom.grp g :: gs2 => remF fuel (g ++ gs2) s
    | RAtom.many1 a :: gs2 =>
      remF fuel (a :: gs2) s ++ remF fuel (a :: RAtom.many1 a :: gs2) s

/-- Fuel budget for matching a pattern parsed from the source string `pat`
against the input `s`: the parsed pattern has at most one atom per source
character, and every matching step either consumes an input character or makes
bounded progress on the pattern, so this product is ample for the patterns in
scope. -/
def patFuel (pat : String) (s : List Char) : Nat := (pat.length + 2) * (s.length + 2)

/-- Anchored case-insensitive match: JavaScript
`new RegExp(String.prototype.concat c1 p c2, 'i').test s` with anchors at both
ends, as built by createBook.  True when the whole input is consumed. -/
def fullMatch (fuel : Nat) (g : List RAtom) (s : List Char) : Bool :=
  (remF fuel g s).any (fun r => r.isEmpty)

/-- Unanchored case-insensitive match: the database regex test
`field: dollar-regex p, dollar-options i` used by searchBooks and the
getAllBooks filters.  True when the pattern matches starting at any position. -/
def someMatch (fuel : Nat) (g : List RAtom) (s : List Char) : Bool :=
  s.tails.any (fun t => !(remF fuel g t).isEmpty)

/-- Strings free of regular-expression metacharacters; on them the patterns
built by the controllers behave as literal case-insensitive comparisons. -/
def regexLiteral (s : String) : Bool := s.data.all (fun c => !(regexMeta.contains c))

/-- Case-insensitive string equality, the spec reading of the duplicate-book
rule (same title and author compared case-insensitively). -/
def ciStrEq (a b : String) : Bool := a.data.map Char.toLower == b.data.map Char.toLower

/-- Case-insensitive substring containment, the spec reading of the search and
filter matches. -/
def ciSubstrB (needle hay : String) : Bool :=
  decide ( List.IsInfix (needle.data.map Char.toLower) (hay.data.map Char.toLower))

/-! Data model.  Fields follow the schemas as used by the controllers; ids and
timestamps are naturals, the average rating is an exact rational. -/

/-- User document (models/User.js; fields as used by the controllers). -/
structure User where
  id : Nat
  username : String
  email : String
  passwordHash : String
deriving DecidableEq

/-- Book document, with the denormalized aggregate fields. -/
structure Book where
  id : Nat
  title : String
  author : String
  genre : String
  description : String
  publicationDate : String
  isbn : String
  createdBy : Nat
  averageRating : Rat
  totalReviews : Nat
  createdAt : Nat
deriving DecidableEq

/-- Review document: one per (book, user) pair, with the like list. -/
structure Review where
  id : Nat
  bookId : Nat
  userId : Nat
  rating : Nat
  reviewText : String
  likes : List Nat
  createdAt : Nat
deriving DecidableEq

/-- The database state: the three collections, in insertion order. -/
structure DB where
  users : List User
  books : List Book
  reviews : List Review
deriving DecidableEq

/-- An error response: HTTP status code and message, exactly as the
controllers produce them.  The spec's abstract taxonomy maps onto these
responses: NotFound is 404, Forbidden 403, Unauthorized 401, BadRequest 400,
Internal 500, and Conflict is surfaced by this codebase as 400 with the
respective duplicate message. -/
structure Failure where
  code : Nat
  msg : String
deriving DecidableEq

/-- Encoding of Except as a sum, giving decidable equality of responses. -/
def exceptToSum {e a : Type} : Except e a → Sum e a
  | Except.error x => Sum.inl x
  | Except.ok x => Sum.inr x

instance {e a : Type} [DecidableEq e] [DecidableEq a] : DecidableEq (Except e a) :=
  fun x y =>
    decidable_of_iff (exceptToSum x = exceptToSum y)
      (by cases x <;> cases y <;> simp [exceptToSum])

/-- Pagination metadata block shared by the listing handlers
(currentPage/totalPages/total/limit/hasNext/hasPrev, computed the same way in
each handler: totalPages is the rounded-up quotient, hasNext is
page < totalPages, hasPrev is page > 1). -/
structure PageMeta where
  currentPage : Nat
  totalPages : Nat
  total : Nat
  limit : Nat
  hasNext : Bool
  hasPrev : Bool
deriving DecidableEq

/-- Rounded-up division, `Math.ceil(total / limit)` for a positive limit. -/
def ceilDiv (a b : Nat) : Nat := (a + b - 1) / b

/-- The pagination block each listing handler computes inline. -/
def mkPageMeta (page limit total : Nat) : PageMeta :=
  { currentPage := page
    totalPages := ceilDiv total limit
    total := total
    limit := limit
    hasNext := decide (page < ceilDiv total limit)
    hasPrev := decide (1 < page) }

/-- Reviews currently stored for a book (`Review.find(bookId)` /
`Review.countDocuments(bookId)`). -/
def reviewsFor (reviews : List Review) (bookId : Nat) : List Review :=
  reviews.filter (fun r => r.bookId == bookId)

/-- The integer nearest to a rational, halves rounded up: JavaScript
`Math.round` on the non-negative values that occur here.  Written as an
explicit integer division so that it evaluates inside the kernel; the lemma
`intRound_eq_round` below identifies it with Mathlib's `round`. -/
def intRound (q : Rat) : Int := (2 * q.num + (q.den : Int)) / (2 * (q.den : Int))

/-- Rounding a rational to one decimal place (`Math.round(x * 10) / 10`). -/
def roundTo1 (q : Rat) : Rat := ((intRound (10 * q) : Int) : Rat) / 10

/-- Modelled from the spec: the aggregation routine of the Review model
(src/backend/src/models/Review.js, absent from src/) that recomputes a book's
denormalized pair after a review mutation.  Spec: recompute = average of all
current ratings for bookId rounded to one decimal, and count = total review
rows for bookId; when the review set is empty, reset to (0, 0).  Books other
than bookId are untouched. -/
def recomputeAggregates (reviews : List Review) (bookId : Nat) (b : Book) : Book :=
  if b.id == bookId then
    match reviewsFor reviews bookId with
    | [] => { b with averageRating := 0, totalReviews := 0 }
    | rs =>
      { b with
        averageRating := roundTo1 (((rs.map (fun r => (r.rating : Rat))).sum) / (rs.length : Rat))
        totalReviews := rs.length }
  else b

/-! Catalog store: bookController.js. -/

/-- Request body of POST /api/books (all fields present after validateBook). -/
structure BookInput where
  title : String
  author : String
  genre : String
  description : String
  publicationDate : String
  isbn : String
deriving DecidableEq

/-- The duplicate-book pre-check of createBook:
`Book.findOne` with `title: regex of '^title$' flag i` and likewise for
author, each built from the raw request strings.  `none` models the RegExp
constructor throwing on an invalid pattern (caught as a 500). -/
def dupBookCheck (books : List Book) (title author : String) : Option Bool :=
  match parsePat title, parsePat author with
  | some pt, some pa =>
    some ((books.find? (fun b =>
      fullMatch (patFuel title b.title.data) pt b.title.data &&
        fullMatch (patFuel author b.author.data) pa b.author.data)).isSome)
  | _, _ => none

/-- POST /api/books (bookController.createBook).  The duplicate check runs
first; on pass, the book is inserted.  The zero aggregate pair of a fresh book
is modelled from the spec (schema defaults of the absent models/Book.js:
averageRating 0, totalReviews 0). -/
def createBook (db : DB) (uid : Nat) (inp : BookInput) (freshId now : Nat) :
    Except Failure Book × DB :=
  match dupBookCheck db.books inp.title inp.author with
  | none => (Except.error ⟨500, "Internal server error while creating book"⟩, db)
  | some true => (Except.error ⟨400, "A book with this title and author already exists"⟩, db)
  | some false =>
    let b : Book :=
      { id := freshId, title := inp.title, author := inp.author, genre := inp.genre
        description := inp.description, publicationDate := inp.publicationDate
        isbn := inp.isbn, createdBy := uid, averageRating := 0, totalReviews := 0
        createdAt := now }
    (Except.ok b, { db with books := db.books ++ [b] })

/-- Newest-first order used by `.sort(createdAt: -1)`. -/
def newestFirst (a b : Book) : Prop := b.createdAt ≤ a.createdAt

instance : DecidableRel newestFirst := fun a b => by unfold newestFirst; infer_instance

instance : IsTotal Book newestFirst :=
  ⟨fun a b => Nat.le_total b.createdAt a.createdAt⟩

instance : IsTrans Book newestFirst :=
  ⟨fun _ _ _ hab hbc => Nat.le_trans hbc hab⟩

/-- Newest-first order on reviews. -/
def reviewNewestFirst (a b : Review) : Prop := b.createdAt ≤ a.createdAt

instance : DecidableRel reviewNewestFirst := fun a b => by
  unfold reviewNewestFirst; infer_instance

instance : IsTotal Review reviewNewestFirst :=
  ⟨fun a b => Nat.le_total b.createdAt a.createdAt⟩

instance : IsTrans Review reviewNewestFirst :=
  ⟨fun _ _ _ hab hbc => Nat.le_trans hbc hab⟩

/-- An optional case-insensitive regex filter on one string field of the
books, as built by getAllBooks for the author and genre query parameters.
`none` models the database rejecting an invalid pattern (caught as a 500). -/
def filterByField (books : List Book) (field : Book → String) (q : Option String) :
    Option (List Book) :=
  match q with
  | none => some books
  | some pat =>
    match parsePat pat with
    | none => none
    | some g =>
      some (books.filter (fun b => someMatch (patFuel pat (field b).data) g (field b).data))

/-- GET /api/books (bookController.getAllBooks): page defaults to 1, limit to
10, optional author/genre filters, newest first, skip/limit slice plus the
pagination block over the total matching count. -/
def getAllBooks (db : DB) (qpage qlimit : Option Nat) (qauthor qgenre : Option String) :
    Except Failure (List Book × PageMeta) :=
  let page := jsNumOr qpage 1
  let limit := jsNumOr qlimit 10
  let skip := (page - 1) * limit
  match filterByField db.books (fun b => b.author) qauthor with
  | none => Except.error ⟨500, "Internal server error while fetching books"⟩
  | some l1 =>
    match filterByField l1 (fun b => b.genre) qgenre with
    | none => Except.error ⟨500, "Internal server error while fetching books"⟩
    | some matched =>
      Except.ok ((( List.insertionSort newestFirst matched).drop skip).take limit,
        mkPageMeta page limit matched.length)

/-- Response of GET /api/books/:id : the book plus a paginated newest-first
slice of its reviews. -/
structure BookWithReviews where
  book : Book
  reviews : List Review
  reviewsPagination : PageMeta
deriving DecidableEq

/-- GET /api/books/:id (bookController.getBookById): 404 when the book is
absent; the nested review list defaults to page 1 and limit 5, with no
validator capping the limit on this route (the route only validates the id). -/
def getBookById (db : DB) (bookId : Nat) (qrevPage qrevLimit : Option Nat) :
    Except Failure BookWithReviews :=
  let reviewPage := jsNumOr qrevPage 1
  let reviewLimit := jsNumOr qrevLimit 5
  let reviewSkip := (reviewPage - 1) * reviewLimit
  match db.books.find? (fun b => b.id == bookId) with
  | none => Except.error ⟨404, "Book not found"⟩
  | some b =>
    let rs := reviewsFor db.reviews bookId
    Except.ok
      { book := b
        reviews := (( List.insertionSort reviewNewestFirst rs).drop reviewSkip).take reviewLimit
        reviewsPagination := mkPageMeta reviewPage reviewLimit rs.length }

/-- Request body of PUT /api/books/:id ; `none` is an absent (undefined)
field. -/
structure BookBody where
  title : Option String
  author : Option String
  genre : Option String
  description : Option String
  publicationDate : Option String
  isbn : Option String
deriving DecidableEq

/-- The field merge updateBook performs on the found book: five fields via
JavaScript `||` (falsy keeps the stored value), isbn via an explicit
undefined-check (any present value overwrites). -/
def applyBookBody (b : Book) (body : BookBody) : Book :=
  { b with
    title := jsOrStr body.title b.title
    author := jsOrStr body.author b.author
    genre := jsOrStr body.genre b.genre
    description := jsOrStr body.description b.description
    publicationDate := jsOrStr body.publicationDate b.publicationDate
    isbn := jsIfDef body.isbn b.isbn }

/-- PUT /api/books/:id (bookController.updateBook): 404 when absent, 403 when
the actor is not the creator, else the merged book is saved. -/
def updateBook (db : DB) (uid bookId : Nat) (body : BookBody) :
    Except Failure Book × DB :=
  match db.books.find? (fun b => b.id == bookId) with
  | none => (Except.error ⟨404, "Book not found"⟩, db)
  | some b =>
    if b.createdBy != uid then
      (Except.error ⟨403, "You can only update books you created"⟩, db)
    else
      let b2 := applyBookBody b body
      (Except.ok b2,
        { db with books := db.books.map (fun x => if x.id == bookId then b2 else x) })

/-- DELETE /api/books/:id (bookController.deleteBook): 404 when absent, 403
when the actor is not the creator, else all reviews of the book are removed
and then the book itself. -/
def deleteBook (db : DB) (uid bookId : Nat) : Except Failure Unit × DB :=
  match db.books.find? (fun b => b.id == bookId) with
  | none => (Except.error ⟨404, "Book not found"⟩, db)
  | some b =>
    if b.createdBy != uid then
      (Except.error ⟨403, "You can only delete books you created"⟩, db)
    else
      (Except.ok (),
        { db with
          reviews := db.reviews.filter (fun r => r.bookId != bookId)
          books := db.books.filter (fun x => x.id != bookId) })

/-- Rating-then-recency order used by searchBooks
(`.sort(averageRating: -1, createdAt: -1)`). -/
def searchRank (a b : Book) : Prop :=
  b.averageRating < a.averageRating ∨
    (a.averageRating = b.averageRating ∧ b.createdAt ≤ a.createdAt)

instance : DecidableRel searchRank := fun a b => by unfold searchRank; infer_instance

instance : IsTotal Book searchRank := by
  constructor
  intro a b
  unfold searchRank
  rcases lt_trichotomy a.averageRating b.averageRating with h | h | h
  · exact Or.inr (Or.inl h)
  · rcases Nat.le_total b.createdAt a.createdAt with h2 | h2
    · exact Or.inl (Or.inr ⟨h, h2⟩)
    · exact Or.inr (Or.inr ⟨h.symm, h2⟩)
  · exact Or.inl (Or.inl h)

instance : IsTrans Book searchRank := by
  constructor
  intro a b c hab hbc
  unfold searchRank at *
  rcases hab with h1 | ⟨h1, h2⟩ <;> rcases hbc with h3 | ⟨h3, h4⟩
  · exact Or.inl (h3.trans h1)
  · exact Or.inl (h3 ▸ h1)
  · exact Or.inl (h1 ▸ h3)
  · exact Or.inr ⟨h1.trans h3, Nat.le_trans h4 h2⟩

/-- Response of GET /api/search. -/
structure SearchOut where
  results : List Book
  pagination : PageMeta
deriving DecidableEq

/-- GET /api/search (bookController.searchBooks): 400 when the search term is
absent or empty (falsy); the term is passed raw to the database regex match on
title, author, or (for type both, the default) their disjunction; results are
ordered by rating then recency and sliced by skip/limit. -/
def searchBooks (db : DB) (q : Option String) (type : String) (qpage qlimit : Option Nat) :
    Except Failure SearchOut :=
  let page := jsNumOr qpage 1
  let limit := jsNumOr qlimit 10
  let skip := (page - 1) * limit
  match q with
  | none => Except.error ⟨400, "Search term is required"⟩
  | some term =>
    if term = "" then Except.error ⟨400, "Search term is required"⟩
    else
      match parsePat term with
      | none => Except.error ⟨500, "Internal server error while searching books"⟩
      | some g =>
        let pred : Book → Bool :=
          if type = "title" then fun b => someMatch (patFuel term b.title.data) g b.title.data
          else if type = "author" then
            fun b => someMatch (patFuel term b.author.data) g b.author.data
          else fun b =>
            someMatch (patFuel term b.title.data) g b.title.data ||
              someMatch (patFuel term b.author.data) g b.author.data
        let matched := db.books.filter pred
        Except.ok
          { results := (( List.insertionSort searchRank matched).drop skip).take limit
            pagination := mkPageMeta page limit matched.length }

/-! Review store: reviewController.js. -/

/-- POST /api/books/:id/reviews (reviewController.createReview): 404 when the
book is absent, the duplicate pre-check (`Review.findOne(bookId, userId)`)
fails with the duplicate message, else the review is inserted.  The
recomputation of the book's aggregate pair after the insert is modelled from
the spec (the aggregation hook lives in the absent models/Review.js): every
successful review mutation invokes aggregation on its bookId. -/
def createReview (db : DB) (uid bookId rating : Nat) (text : String) (freshId now : Nat) :
    Except Failure Review × DB :=
  match db.books.find? (fun b => b.id == bookId) with
  | none => (Except.error ⟨404, "Book not found"⟩, db)
  | some _ =>
    match db.reviews.find? (fun r => r.bookId == bookId && r.userId == uid) with
    | some _ => (Except.error ⟨400, "You have already reviewed this book"⟩, db)
    | none =>
      let rv : Review :=
        { id := freshId, bookId := bookId, userId := uid, rating := rating
          reviewText := text, likes := [], createdAt := now }
      let reviews2 := db.reviews ++ [rv]
      (Except.ok rv,
        { db with
          reviews := reviews2
          books := db.books.map (recomputeAggregates reviews2 bookId) })

/-- Request body of PUT /api/reviews/:id ; both fields use an explicit
undefined-check in the controller. -/
structure ReviewBody where
  rating : Option Nat
  reviewText : Option String
deriving DecidableEq

/-- PUT /api/reviews/:id (reviewController.updateReview): 404 when absent, 403
when the actor is not the author, else the fields present in the body
overwrite and the review is saved.  Aggregation on the review's bookId after
the save is modelled from the spec (hook in the absent models/Review.js). -/
def updateReview (db : DB) (uid reviewId : Nat) (body : ReviewBody) :
    Except Failure Review × DB :=
  match db.reviews.find? (fun r => r.id == reviewId) with
  | none => (Except.error ⟨404, "Review not found"⟩, db)
  | some rv =>
    if rv.userId != uid then
      (Except.error ⟨403, "You can only update your own reviews"⟩, db)
    else
      let rv2 : Review :=
        { rv with
          rating := body.rating.getD rv.rating
          reviewText := body.reviewText.getD rv.reviewText }
      let reviews2 := db.reviews.map (fun r => if r.id == reviewId then rv2 else r)
      (Except.ok rv2,
        { db with
          reviews := reviews2
          books := db.books.map (recomputeAggregates reviews2 rv.bookId) })

/-- DELETE /api/reviews/:id (reviewController.deleteReview): 404 when absent,
403 when the actor is not the author, else the review is removed.  Aggregation
on the review's bookId after the removal is modelled from the spec (hook in
the absent models/Review.js). -/
def deleteReview (db : DB) (uid reviewId : Nat) : Except Failure Unit × DB :=
  match db.reviews.find? (fun r => r.id == reviewId) with
  | none => (Except.error ⟨404, "Review not found"⟩, db)
  | some rv =>
    if rv.userId != uid then
      (Except.error ⟨403, "You can only delete your own reviews"⟩, db)
    else
      let reviews2 := db.reviews.filter (fun r => r.id != reviewId)
      (Except.ok (),
        { db with
          reviews := reviews2
          books := db.books.map (recomputeAggregates reviews2 rv.bookId) })

/-- GET /api/books/:bookId/reviews (reviewController.getBookReviews): all
reviews of the book, newest first, with no pagination parameters at all. -/
def getBookReviews (db : DB) (bookId : Nat) : Except Failure (List Review) :=
  Except.ok ( List.insertionSort reviewNewestFirst (reviewsFor db.reviews bookId))

/-- The like-list toggle of toggleLikeReview: `indexOf` finds the first
occurrence of the actor's id; when absent (`-1`) the id is pushed to the end,
else `splice` removes that first occurrence. -/
def toggleLikes (likes : List Nat) (uid : Nat) : List Nat :=
  if likes.contains uid then likes.erase uid else likes ++ [uid]

/-- POST /api/reviews/:id/like (reviewController.toggleLikeReview): 404 when
the review is absent, else the like list is toggled and the response carries
the liked/unliked message and the resulting like count. -/
def toggleLikeReview (db : DB) (uid reviewId : Nat) :
    Except Failure (String × Nat) × DB :=
  match db.reviews.find? (fun r => r.id == reviewId) with
  | none => (Except.error ⟨404, "Review not found"⟩, db)
  | some rv =>
    let likes2 := toggleLikes rv.likes uid
    let rv2 : Review := { rv with likes := likes2 }
    (Except.ok ((if rv.likes.contains uid then "Review unliked" else "Review liked"),
        likes2.length),
      { db with reviews := db.reviews.map (fun r => if r.id == reviewId then rv2 else r) })

/-! Credential store: authController.js. -/

/-- Modelled from the spec: `user.comparePassword(password)` of the absent
models/User.js (bcrypt compare of the candidate against the salted hash),
modelled as equality with the stored secret. -/
def comparePassword (u : User) (candidate : String) : Bool := candidate == u.passwordHash

/-- POST /api/auth/login (authController.login): the same 401 response for an
unknown email and for a failed password comparison; on success the user id is
resolved (token issuance is outside the model). -/
def login (db : DB) (email password : String) : Except Failure (Nat × String) :=
  match db.users.find? (fun u => u.email == email) with
  | none => Except.error ⟨401, "Invalid email or password"⟩
  | some u =>
    if comparePassword u password then Except.ok (u.id, "Login successful")
    else Except.error ⟨401, "Invalid email or password"⟩

/-! Validation middleware (middleware/validation.js), for the routes that
mount it. -/

/-- validatePagination: page, when present, must be at least 1; limit, when
present, must be between 1 and 100.  Mounted on GET /api/books and
GET /api/search only. -/
def validatePagination (qpage qlimit : Option Nat) : Bool :=
  (qpage.all (fun p => decide (1 ≤ p))) &&
    (qlimit.all (fun l => decide (1 ≤ l) && decide (l ≤ 100)))

/-- GET /api/books as routed: validatePagination (and the filter validators,
which impose no cap) run before the handler. -/
def getAllBooksRoute (db : DB) (qpage qlimit : Option Nat) (qauthor qgenre : Option String) :
    Except Failure (List Book × PageMeta) :=
  if validatePagination qpage qlimit then getAllBooks db qpage qlimit qauthor qgenre
  else Except.error ⟨400, "Validation failed"⟩

/-- GET /api/search as routed: validateSearch and validatePagination run
before the handler (the search-term length rule is not needed by the claims
and is not modelled beyond presence). -/
def searchBooksRoute (db : DB) (q : Option String) (type : String) (qpage qlimit : Option Nat) :
    Except Failure SearchOut :=
  if validatePagination qpage qlimit then searchBooks db q type qpage qlimit
  else Except.error ⟨400, "Validation failed"⟩

/-! Well-formedness and the aggregation invariant. -/

/-- Well-formed database states, as maintained by the store: document ids are
unique (the database primary key), every review references an existing book
(reviews are only created for existing books and deleting a book cascades to
its reviews), and no like list holds duplicates (ids are only pushed when
absent). -/
def WF (db : DB) : Prop :=
  (db.books.map (fun b => b.id)).Nodup ∧
  (db.reviews.map (fun r => r.id)).Nodup ∧
  (∀ r ∈ db.reviews, ∃ b ∈ db.books, b.id = r.bookId) ∧
  (∀ r ∈ db.reviews, r.likes.Nodup)

instance : DecidablePred WF := fun db => by
  unfold WF
  infer_instance

/-- The spec's aggregate invariant for one book: the cached pair equals the
mean of the current ratings rounded to one decimal and their count, and the
pair is (0, 0) when the review set is empty. -/
def bookAggOk (reviews : List Review) (b : Book) : Prop :=
  (reviewsFor reviews b.id = [] → b.averageRating = 0 ∧ b.totalReviews = 0) ∧
  (reviewsFor reviews b.id ≠ [] →
    b.averageRating =
      roundTo1 ((((reviewsFor reviews b.id).map (fun r => (r.rating : Rat))).sum) /
        (((reviewsFor reviews b.id).length : Nat) : Rat)) ∧
    b.totalReviews = (reviewsFor reviews b.id).length)

instance (reviews : List Review) (b : Book) : Decidable (bookAggOk reviews b) := by
  unfold bookAggOk
  infer_instance

/-- The spec's aggregate invariant over the whole catalog. -/
def AggInv (db : DB) : Prop := ∀ b ∈ db.books, bookAggOk db.reviews b

instance : DecidablePred AggInv := fun db => by
  unfold AggInv
  infer_instance

/-! Concrete states used by the witnesses and counterexamples. -/

/-- A sample user. -/
def w1User : User :=
  { id := 1, username := "alice", email := "alice@example.com", passwordHash := "Secret1" }

/-- A sample book whose aggregate pair is consistent with its one review. -/
def w1Book : Book :=
  { id := 1, title := "Dune", author := "Herbert", genre := "SF", description := "sand"
    publicationDate := "1965-08-01", isbn := "", createdBy := 1, averageRating := 5
    totalReviews := 1, createdAt := 0 }

/-- The one review of the sample book. -/
def w1Review : Review :=
  { id := 1, bookId := 1, userId := 1, rating := 5, reviewText := "a milestone read"
    likes := [], createdAt := 0 }

/-- A small well-formed database with a correct aggregate pair. -/
def w1DB : DB := { users := [w1User], books := [w1Book], reviews := [w1Review] }

/-- A review liked by user 7, for the like-toggle witness. -/
def w3Review : Review :=
  { id := 1, bookId := 1, userId := 1, rating := 5, reviewText := "a milestone read"
    likes := [7], createdAt := 0 }

/-- Database for the like-toggle witness. -/
def w3DB : DB := { users := [], books := [], reviews := [w3Review] }

/-- A book whose title contains the regex metacharacter `+`. -/
def c5Book : Book :=
  { id := 1, title := "a+", author := "b", genre := "g", description := "d"
    publicationDate := "2000-01-01", isbn := "", createdBy := 1, averageRating := 0
    totalReviews := 0, createdAt := 0 }

/-- Database already holding the metacharacter-titled book. -/
def c5DB : DB := { users := [], books := [c5Book], reviews := [] }

/-- A request submitting the identical title and author again. -/
def c5Inp : BookInput :=
  { title := "a+", author := "b", genre := "g", description := "d"
    publicationDate := "2000-01-01", isbn := "" }

/-- A book titled Cat, for the regex-duplicate counterexamples. -/
def c9Book : Book :=
  { id := 1, title := "Cat", author := "A", genre := "g", description := "d"
    publicationDate := "2000-01-01", isbn := "", createdBy := 1, averageRating := 0
    totalReviews := 0, createdAt := 0 }

/-- Database holding the Cat book. -/
def c9DB : DB := { users := [], books := [c9Book], reviews := [] }

/-- A request whose title C.t is not the stored title but regex-matches it. -/
def c9Inp : BookInput :=
  { title := "C.t", author := "A", genre := "g", description := "d"
    publicationDate := "2000-01-01", isbn := "" }

/-- A request whose title holds an unbalanced parenthesis. -/
def c9BadInp : BookInput :=
  { title := "Cat(", author := "A", genre := "g", description := "d"
    publicationDate := "2000-01-01", isbn := "" }

/-- A book found by the search counterexample. -/
def c7Book : Book :=
  { id := 1, title := "xyz", author := "qq", genre := "g", description := "d"
    publicationDate := "2000-01-01", isbn := "", createdBy := 1, averageRating := 0
    totalReviews := 0, createdAt := 0 }

/-- Database for the search counterexample. -/
def c7DB : DB := { users := [], books := [c7Book], reviews := [] }

/-- A book holding 101 reviews, for the pagination-cap counterexample. -/
def c4Book : Book :=
  { id := 1, title := "T", author := "A", genre := "g", description := "d"
    publicationDate := "2000-01-01", isbn := "", createdBy := 1, averageRating := 5
    totalReviews := 101, createdAt := 0 }

/-- The i-th of the 101 reviews of that book. -/
def c4Review (i : Nat) : Review :=
  { id := i, bookId := 1, userId := i, rating := 5, reviewText := "read it already"
    likes := [], createdAt := 0 }

/-- Database with one book and 101 reviews of it. -/
def c4DB : DB :=
  { users := [], books := [c4Book], reviews := (List.range 101).map c4Review }

/-- The i-th of 25 plain books, for the pagination example witness. -/
def c4wBook (i : Nat) : Book :=
  { id := i, title := "T", author := "A", genre := "g", description := "d"
    publicationDate := "2000-01-01", isbn := "", createdBy := 1, averageRating := 0
    totalReviews := 0, createdAt := i }

/-- Database with 25 books and no reviews. -/
def c4wDB : DB := { users := [], books := (List.range 25).map c4wBook, reviews := [] }

/-! Helper lemmas on lists, shared by the claim proofs. -/

theorem intRound_eq_round (q : Rat) : intRound q = round q := by
  rw [round_eq]
  have hden : ((q.den : ℚ)) ≠ 0 := by
    exact_mod_cast q.den_nz
  have hsplit : q + 1 / 2 = (((2 * q.num + (q.den : Int)) : Int) : ℚ) / (((2 * q.den : Nat)) : ℚ) := by
    push_cast
    nth_rewrite 1 [← Rat.num_div_den q]
    field_simp
    ring
  rw [hsplit, Rat.floor_intCast_div_natCast]
  unfold intRound
  push_cast
  ring_nf

theorem parseAux_literal (cs : List Char) (acc : List RAtom) (n : Nat)
    (h : ∀ c ∈ cs, c ∉ regexMeta) (hn : cs.length < n) :
    parseAux n cs acc [] = some (acc.reverse ++ cs.map RAtom.ch) := by
  induction cs generalizing acc n with
  | nil =>
    match n, hn with
    | m + 1, _ => simp [parseAux]
  | cons c cs ih =>
    match n, hn with
    | m + 1, hn =>
      have hc := h c (List.mem_cons_self _ _)
      have h1 : ¬ c = '(' := fun he => hc (by rw [he]; decide)
      have h2 : ¬ c = ')' := fun he => hc (by rw [he]; decide)
      have h3 : ¬ c = '.' := fun he => hc (by rw [he]; decide)
      have h4 : ¬ c = '+' := fun he => hc (by rw [he]; decide)
      have h5 : c ∉ unsupportedMeta := by
        intro hm
        apply hc
        simp only [unsupportedMeta, List.mem_cons, List.not_mem_nil, or_false] at hm
        rcases hm with rfl | rfl | rfl | rfl | rfl | rfl | rfl | rfl | rfl | rfl <;> decide
      have hlt : cs.length < m := by
        simp only [List.length_cons] at hn
        omega
      show parseAux (m + 1) (c :: cs) acc [] = _
      rw [parseAux]
      rw [if_neg h1, if_neg h2, if_neg h3, if_neg h4, if_neg h5]
      rw [ih (RAtom.ch c :: acc) m (fun x hx => h x (List.mem_cons_of_mem _ hx)) hlt]
      simp

theorem parsePat_literal (s : String) (h : regexLiteral s = true) :
    parsePat s = some (s.data.map RAtom.ch) := by
  have h2 : ∀ c ∈ s.data, c ∉ regexMeta := by
    intro c hc
    unfold regexLiteral at h
    have := List.all_eq_true.mp h c hc
    simpa using this
  unfold parsePat
  rw [parseAux_literal s.data [] (s.data.length + 1) h2 (Nat.lt_succ_self _)]
  rfl

theorem remF_literal (cs : List Char) (s : List Char) (fuel : Nat)
    (hf : cs.length < fuel) :
    remF fuel (cs.map RAtom.ch) s =
      if (cs.map Char.toLower).isPrefixOf (s.map Char.toLower) then [s.drop cs.length]
      else [] := by
  induction cs generalizing s fuel with
  | nil =>
    match fuel, hf with
    | m + 1, _ => simp [remF, List.isPrefixOf]
  | cons c cs ih =>
    match fuel, hf with
    | m + 1, hf =>
      have hlt : cs.length < m := by
        simp only [List.length_cons] at hf
        omega
      cases s with
      | nil => simp [remF, List.isPrefixOf]
      | cons x xs =>
        simp only [List.map_cons, remF, List.isPrefixOf, List.drop_succ_cons]
        by_cases hcx : ciEq c x = true
        · have hlow : (c.toLower == x.toLower) = true := hcx
          rw [if_pos hcx, ih xs m hlt]
          simp [hlow]
        · have hlow : (c.toLower == x.toLower) = false := by
            simpa [ciEq] using hcx
          rw [if_neg hcx]
          simp [hlow]

theorem fullMatch_lit (cs s : List Char) (fuel : Nat) (hf : cs.length < fuel) :
    fullMatch fuel (cs.map RAtom.ch) s = true ↔
      cs.map Char.toLower = s.map Char.toLower := by
  unfold fullMatch
  rw [remF_literal cs s fuel hf]
  by_cases hp : (cs.map Char.toLower).isPrefixOf (s.map Char.toLower)
  · rw [if_pos hp]
    have hpre := List.isPrefixOf_iff_prefix.mp hp
    have hlen : cs.length ≤ s.length := by
      have := hpre.length_le
      simpa using this
    constructor
    · intro hany
      simp only [List.any_cons, List.any_nil, Bool.or_false] at hany
      have hdrop : s.drop cs.length = [] := by
        simpa using hany
      have hslen : s.length ≤ cs.length := by
        have := congrArg List.length hdrop
        simp only [List.length_drop, List.length_nil] at this
        omega
      have hlens : (cs.map Char.toLower).length = (s.map Char.toLower).length := by
        simp
        omega
      exact List.IsPrefix.eq_of_length hpre hlens
    · intro heq
      have hlens : cs.length = s.length := by
        have := congrArg List.length heq
        simpa using this
      simp [List.drop_eq_nil_iff, hlens]
  · rw [if_neg hp]
    simp only [List.any_nil, Bool.false_eq_true, false_iff]
    intro heq
    exact hp (by rw [heq]; exact List.isPrefixOf_iff_prefix.mpr List.prefix_rfl)

theorem someMatch_lit (cs s : List Char) (fuel : Nat) (hf : cs.length < fuel) :
    someMatch fuel (cs.map RAtom.ch) s = true ↔
       List.IsInfix (cs.map Char.toLower) (s.map Char.toLower) := by
  unfold someMatch
  rw [List.any_eq_true]
  constructor
  · rintro ⟨t, ht, hp⟩
    have hts : t <:+ s := (List.mem_tails t s).mp ht
    have hne : remF fuel (cs.map RAtom.ch) t ≠ [] := by simpa using hp
    rw [remF_literal cs t fuel hf] at hne
    by_cases hpre : (cs.map Char.toLower).isPrefixOf (t.map Char.toLower)
    · exact List.infix_iff_prefix_suffix.mpr
        ⟨t.map Char.toLower, List.isPrefixOf_iff_prefix.mp hpre, List.IsSuffix.map _ hts⟩
    · rw [if_neg hpre] at hne
      exact absurd rfl hne
  · intro hinf
    obtain ⟨t2, hpre, hsuf⟩ := List.infix_iff_prefix_suffix.mp hinf
    have hsuf2 : t2 = List.drop ((s.map Char.toLower).length - t2.length)
        (s.map Char.toLower) := List.suffix_iff_eq_drop.mp hsuf
    refine ⟨s.drop ((s.map Char.toLower).length - t2.length), ?_, ?_⟩
    · exact (List.mem_tails _ _).mpr (List.drop_suffix _ s)
    · have ht2 : t2 = (s.drop ((s.map Char.toLower).length - t2.length)).map Char.toLower := by
        rw [List.map_drop]
        exact hsuf2
      have hpre2 : (cs.map Char.toLower).isPrefixOf
          ((s.drop ((s.map Char.toLower).length - t2.length)).map Char.toLower) :=
        List.isPrefixOf_iff_prefix.mpr (ht2 ▸ hpre)
      rw [remF_literal cs _ fuel hf, if_pos hpre2]
      simp

theorem length_lt_patFuel (pat : String) (s : List Char) :
    pat.data.length < patFuel pat s := by
  unfold patFuel
  have h1 : pat.length = pat.data.length := rfl
  calc pat.data.length < pat.data.length + 2 := by omega
    _ = (pat.length + 2) * 1 := by rw [h1]; omega
    _ ≤ (pat.length + 2) * (s.length + 2) := Nat.mul_le_mul_left _ (by omega)

theorem fullMatch_ciStrEq (pat : String) (t : String) :
    fullMatch (patFuel pat t.data) (pat.data.map RAtom.ch) t.data = ciStrEq pat t := by
  have hf := length_lt_patFuel pat t.data
  cases hb : ciStrEq pat t with
  | false =>
    rw [Bool.eq_false_iff]
    intro hcon
    have heq := (fullMatch_lit pat.data t.data _ hf).mp hcon
    have htrue : ciStrEq pat t = true := by
      unfold ciStrEq
      exact beq_iff_eq.mpr heq
    rw [hb] at htrue
    cases htrue
  | true =>
    have heq : pat.data.map Char.toLower = t.data.map Char.toLower := by
      unfold ciStrEq at hb
      exact beq_iff_eq.mp hb
    exact (fullMatch_lit pat.data t.data _ hf).mpr heq

theorem dupBookCheck_literal (books : List Book) (title author : String)
    (ht : regexLiteral title = true) (ha : regexLiteral author = true) :
    dupBookCheck books title author =
      some ((books.find? (fun b =>
        ciStrEq title b.title && ciStrEq author b.author)).isSome) := by
  unfold dupBookCheck
  rw [parsePat_literal title ht, parsePat_literal author ha]
  dsimp only
  have hfun : (fun b : Book =>
      fullMatch (patFuel title b.title.data) (title.data.map RAtom.ch) b.title.data &&
        fullMatch (patFuel author b.author.data) (author.data.map RAtom.ch) b.author.data) =
      (fun b : Book => ciStrEq title b.title && ciStrEq author b.author) := by
    funext b
    rw [fullMatch_ciStrEq title b.title, fullMatch_ciStrEq author b.author]
  rw [hfun]

theorem find?_map_update {α : Type} (l : List α) (p : α → Bool) (f : α → α)
    (hp : ∀ x, p (f x) = p x) (a : α) (h : l.find? p = some a) :
    (l.map f).find? p = some (f a) := by
  rw [List.find?_map]
  have hfp : p ∘ f = p := funext hp
  rw [hfp, h]
  rfl

theorem filter_map_id_of {α : Type} (l : List α) (p : α → Bool) (f : α → α)
    (h : ∀ x ∈ l, p x = true → f x = x) (hp : ∀ x ∈ l, p (f x) = p x) :
    (l.map f).filter p = l.filter p := by
  induction l with
  | nil => rfl
  | cons a as ih =>
    have ih2 := ih (fun x hx hpx => h x (List.mem_cons_of_mem _ hx) hpx)
      (fun x hx => hp x (List.mem_cons_of_mem _ hx))
    have hpa := hp a (List.mem_cons_self _ _)
    cases hcase : p a with
    | true =>
      have hfa := h a (List.mem_cons_self _ _) hcase
      simp [List.filter_cons, hpa, hcase, hfa, ih2]
    | false =>
      simp [List.filter_cons, hpa, hcase, ih2]

theorem filter_filter_of_imp {α : Type} (l : List α) (p q : α → Bool)
    (h : ∀ x ∈ l, p x = true → q x = true) :
    (l.filter q).filter p = l.filter p := by
  induction l with
  | nil => rfl
  | cons a as ih =>
    have ih2 := ih (fun x hx hpx => h x (List.mem_cons_of_mem _ hx) hpx)
    cases hq : q a with
    | true => simp [List.filter_cons, hq, ih2]
    | false =>
      have hpa : p a = false := by
        cases hpc : p a with
        | true => exact absurd (h a (List.mem_cons_self _ _) hpc) (by simp [hq])
        | false => rfl
      simp [List.filter_cons, hq, hpa, ih2]

/-! Aggregation-invariant lemmas. -/

theorem reviewsFor_append (reviews : List Review) (rv : Review) (x : Nat)
    (h : rv.bookId ≠ x) :
    reviewsFor (reviews ++ [rv]) x = reviewsFor reviews x := by
  unfold reviewsFor
  rw [List.filter_append]
  simp [List.filter_cons, h]

theorem recomputeAggregates_id (reviews : List Review) (bid : Nat) (b : Book) :
    (recomputeAggregates reviews bid b).id = b.id := by
  unfold recomputeAggregates
  by_cases hb : b.id = bid
  · cases h : reviewsFor reviews bid <;> simp [hb, h]
  · simp [hb]

theorem recomputeAggregates_skip (reviews : List Review) (bid : Nat) (b : Book)
    (h : b.id ≠ bid) : recomputeAggregates reviews bid b = b := by
  unfold recomputeAggregates
  simp [h]

theorem bookAggOk_congr {r1 r2 : List Review} {b : Book}
    (h : reviewsFor r2 b.id = reviewsFor r1 b.id) (hb : bookAggOk r1 b) :
    bookAggOk r2 b := by
  unfold bookAggOk at *
  rw [h]
  exact hb

theorem bookAggOk_recompute (reviews : List Review) (bid : Nat) (b : Book)
    (h : b.id = bid) :
    bookAggOk reviews (recomputeAggregates reviews bid b) := by
  subst h
  have hid := recomputeAggregates_id reviews b.id b
  unfold bookAggOk
  rw [hid]
  unfold recomputeAggregates
  simp only [beq_self_eq_true, if_true]
  cases hrs : reviewsFor reviews b.id with
  | nil => simp [hrs]
  | cons r rs =>
    constructor
    · intro hcon
      simp at hcon
    · intro _
      simp [hrs]

theorem aggInv_map_recompute (reviews : List Review) (bid : Nat) (books : List Book)
    (h : ∀ b ∈ books, b.id ≠ bid → bookAggOk reviews b) :
    ∀ b2 ∈ books.map (recomputeAggregates reviews bid), bookAggOk reviews b2 := by
  intro b2 hb2
  rcases List.mem_map.mp hb2 with ⟨b, hb, rfl⟩
  by_cases hid : b.id = bid
  · exact bookAggOk_recompute reviews bid b hid
  · rw [recomputeAggregates_skip reviews bid b hid]
    exact h b hb hid

theorem aggInv_createReview (db : DB) (hinv : AggInv db)
    (uid bid rating freshId now : Nat) (text : String) :
    AggInv (createReview db uid bid rating text freshId now).2 := by
  unfold createReview
  cases hb : db.books.find? (fun b => b.id == bid) with
  | none => exact hinv
  | some b0 =>
    cases hr : db.reviews.find? (fun r => r.bookId == bid && r.userId == uid) with
    | some _ => exact hinv
    | none =>
      dsimp only
      intro b2 hb2
      refine aggInv_map_recompute _ bid db.books ?_ b2 hb2
      intro b hbm hid
      refine bookAggOk_congr ?_ (hinv b hbm)
      exact reviewsFor_append db.reviews _ b.id (fun hc => hid hc.symm)

theorem aggInv_updateReview (db : DB) (hwf : WF db) (hinv : AggInv db)
    (uid rid : Nat) (body : ReviewBody) :
    AggInv (updateReview db uid rid body).2 := by
  obtain ⟨-, hnd, -, -⟩ := hwf
  unfold updateReview
  cases hfind : db.reviews.find? (fun r => r.id == rid) with
  | none => exact hinv
  | some rv =>
    dsimp only
    by_cases hown : (rv.userId != uid) = true
    · rw [if_pos hown]; exact hinv
    · rw [if_neg hown]
      dsimp only
      intro b2 hb2
      have hmem := List.mem_of_find?_eq_some hfind
      have hrvid : rv.id = rid := by simpa using List.find?_some hfind
      refine aggInv_map_recompute _ rv.bookId db.books ?_ b2 hb2
      intro b hbm hid
      refine bookAggOk_congr ?_ (hinv b hbm)
      unfold reviewsFor
      apply filter_map_id_of
      · intro x hx hpx
        have hxr : (x.id == rid) = false := by
          cases hcase : (x.id == rid) with
          | false => rfl
          | true =>
            have hxrv : x = rv :=
              List.inj_on_of_nodup_map hnd hx hmem
                (by rw [hrvid]; exact eq_of_beq hcase)
            have hcontr : rv.bookId = b.id := by
              rw [← hxrv]; exact eq_of_beq hpx
            exact absurd hcontr.symm hid
        simp [hxr]
      · intro x hx
        cases hcase : (x.id == rid) with
        | false => simp [hcase]
        | true =>
          have hxrv : x = rv :=
            List.inj_on_of_nodup_map hnd hx hmem (by rw [hrvid]; exact eq_of_beq hcase)
          simp [hcase, hxrv]

theorem aggInv_deleteReview (db : DB) (hwf : WF db) (hinv : AggInv db)
    (uid rid : Nat) :
    AggInv (deleteReview db uid rid).2 := by
  obtain ⟨-, hnd, -, -⟩ := hwf
  unfold deleteReview
  cases hfind : db.reviews.find? (fun r => r.id == rid) with
  | none => exact hinv
  | some rv =>
    dsimp only
    by_cases hown : (rv.userId != uid) = true
    · rw [if_pos hown]; exact hinv
    · rw [if_neg hown]
      dsimp only
      intro b2 hb2
      have hmem := List.mem_of_find?_eq_some hfind
      have hrvid : rv.id = rid := by simpa using List.find?_some hfind
      refine aggInv_map_recompute _ rv.bookId db.books ?_ b2 hb2
      intro b hbm hid
      refine bookAggOk_congr ?_ (hinv b hbm)
      unfold reviewsFor
      apply filter_filter_of_imp
      intro x hx hpx
      cases hcase : (x.id != rid) with
      | true => rfl
      | false =>
        have hxid : x.id = rid := by simpa using hcase
        have hxrv : x = rv :=
          List.inj_on_of_nodup_map hnd hx hmem (by rw [hxid, hrvid])
        have hcontr : rv.bookId = b.id := by rw [← hxrv]; exact eq_of_beq hpx
        exact absurd hcontr.symm hid

/-- C1: after any review create, update, or delete settles (successfully or
not), every book's averageRating equals the mean of the ratings of its current
reviews rounded to one decimal and totalReviews equals their count, with the
pair reset to (0, 0) on an empty review set — each successful mutation
recomputes the aggregate of its bookId in full, and the aggregate of every
other book is untouched and stays correct. -/
theorem C1_aggregates_recomputed (db : DB) (hwf : WF db) (hinv : AggInv db)
    (uid bid rid rating freshId now : Nat) (text : String) (body : ReviewBody) :
    AggInv (createReview db uid bid rating text freshId now).2 ∧
    AggInv (updateReview db uid rid body).2 ∧
    AggInv (deleteReview db uid rid).2 :=
  ⟨aggInv_createReview db hinv uid bid rating freshId now text,
   aggInv_updateReview db hwf hinv uid rid body,
   aggInv_deleteReview db hwf hinv uid rid⟩

/-- Witness for C1: the hypotheses of the theorem hold at a concrete database
and the conclusion follows by applying it (user 1 already holds review 1). -/
theorem C1_aggregates_recomputed_witness :
    WF w1DB ∧ AggInv w1DB ∧
      (AggInv (createReview w1DB 1 1 3 "reread it twice" 2 1).2 ∧
       AggInv (updateReview w1DB 1 1 ⟨some 4, none⟩).2 ∧
       AggInv (deleteReview w1DB 1 1).2) :=
  ⟨by decide, by with_unfolding_all decide,
    C1_aggregates_recomputed w1DB (by decide) (by with_unfolding_all decide) 1 1 1 3 2 1
      "reread it twice" ⟨some 4, none⟩⟩

/-- C2: createReview fails with the duplicate-review error (the spec's
Conflict, surfaced as 400 with the duplicate message) and leaves the database
unchanged when the actor already has a review for the book; fails with 404 and
no change when the book is absent; otherwise inserts exactly one new review
for the (bookId, actor) pair.  Well-formedness makes the first two cases
disjoint: every stored review references a stored book. -/
theorem C2_createReview_cases (db : DB) (hwf : WF db)
    (uid bid rating freshId now : Nat) (text : String) :
    ((∃ r ∈ db.reviews, r.bookId = bid ∧ r.userId = uid) →
      createReview db uid bid rating text freshId now =
        (Except.error ⟨400, "You have already reviewed this book"⟩, db)) ∧
    ((∀ b ∈ db.books, b.id ≠ bid) →
      createReview db uid bid rating text freshId now =
        (Except.error ⟨404, "Book not found"⟩, db)) ∧
    ((∃ b ∈ db.books, b.id = bid) →
      (∀ r ∈ db.reviews, ¬(r.bookId = bid ∧ r.userId = uid)) →
      (createReview db uid bid rating text freshId now).1 =
        Except.ok { id := freshId, bookId := bid, userId := uid, rating := rating
                    reviewText := text, likes := [], createdAt := now } ∧
      (createReview db uid bid rating text freshId now).2.reviews =
        db.reviews ++ [{ id := freshId, bookId := bid, userId := uid, rating := rating
                         reviewText := text, likes := [], createdAt := now }]) := by
  obtain ⟨-, -, href, -⟩ := hwf
  refine ⟨?_, ?_, ?_⟩
  · rintro ⟨r, hr, hrb, hru⟩
    obtain ⟨b, hbm, hbid⟩ := href r hr
    have hbf : (db.books.find? (fun x => x.id == bid)).isSome := by
      rw [List.find?_isSome]
      exact ⟨b, hbm, by simp [hbid, hrb]⟩
    have hrf : (db.reviews.find? (fun x => x.bookId == bid && x.userId == uid)).isSome := by
      rw [List.find?_isSome]
      exact ⟨r, hr, by simp [hrb, hru]⟩
    obtain ⟨b0, hb0⟩ := Option.isSome_iff_exists.mp hbf
    obtain ⟨r0, hr0⟩ := Option.isSome_iff_exists.mp hrf
    unfold createReview
    rw [hb0, hr0]
  · intro habs
    have hbf : db.books.find? (fun x => x.id == bid) = none := by
      rw [List.find?_eq_none]
      intro b hb
      simp [habs b hb]
    unfold createReview
    rw [hbf]
  · rintro ⟨b, hbm, hbid⟩ hnone
    have hbf : (db.books.find? (fun x => x.id == bid)).isSome := by
      rw [List.find?_isSome]
      exact ⟨b, hbm, by simp [hbid]⟩
    have hrf : db.reviews.find? (fun x => x.bookId == bid && x.userId == uid) = none := by
      rw [List.find?_eq_none]
      intro r hr
      have := hnone r hr
      simp only [Bool.and_eq_true, beq_iff_eq]
      tauto
    obtain ⟨b0, hb0⟩ := Option.isSome_iff_exists.mp hbf
    unfold createReview
    rw [hb0, hrf]
    exact ⟨rfl, rfl⟩

/-- Witness for C2 at the sample database: user 1 already reviewed book 1, so
a second submission is refused with the duplicate error and no change. -/
theorem C2_createReview_cases_witness :
    WF w1DB ∧ (∃ r ∈ w1DB.reviews, r.bookId = 1 ∧ r.userId = 1) ∧
      createReview w1DB 1 1 3 "changed my mind" 9 9 =
        (Except.error ⟨400, "You have already reviewed this book"⟩, w1DB) :=
  ⟨by decide, by decide,
    (C2_createReview_cases w1DB (by decide) 1 1 3 9 9 "changed my mind").1 (by decide)⟩

theorem toggleLikeReview_found (db : DB) (uid rid : Nat) (rv : Review)
    (hfind : db.reviews.find? (fun r => r.id == rid) = some rv) :
    toggleLikeReview db uid rid =
      (Except.ok ((if rv.likes.contains uid then "Review unliked" else "Review liked"),
          (toggleLikes rv.likes uid).length),
        { db with reviews := db.reviews.map (fun r =>
            if r.id == rid then { rv with likes := toggleLikes rv.likes uid } else r) }) := by
  unfold toggleLikeReview
  rw [hfind]

theorem toggleLikeReview_found_find? (db : DB) (uid rid : Nat) (rv : Review)
    (hfind : db.reviews.find? (fun r => r.id == rid) = some rv) :
    (toggleLikeReview db uid rid).2.reviews.find? (fun r => r.id == rid) =
      some { rv with likes := toggleLikes rv.likes uid } := by
  have hrv0 := List.find?_some hfind
  have hrv : (rv.id == rid) = true := hrv0
  rw [toggleLikeReview_found db uid rid rv hfind]
  have hp : ∀ x : Review,
      ((if (x.id == rid) = true then { rv with likes := toggleLikes rv.likes uid } else x).id ==
        rid) = (x.id == rid) := by
    intro x
    by_cases hx : (x.id == rid) = true
    · simp [hx, hrv]
    · simp [hx]
  have h := find?_map_update db.reviews (fun r => r.id == rid)
    (fun r => if r.id == rid then { rv with likes := toggleLikes rv.likes uid } else r)
    hp rv hfind
  dsimp only at h ⊢
  rw [if_pos hrv] at h
  exact h

/-- C3: toggleLike adds the actor's id to the like list when absent and
removes it when present, returning the resulting like count; toggling twice in
succession with the same actor returns the stored like list to a permutation
of its original value — the same like set and the same like count — and the
second response reports the original count. -/
theorem C3_toggleLike_involutive (db : DB) (uid rid : Nat) (rv : Review)
    (hfind : db.reviews.find? (fun r => r.id == rid) = some rv)
    (hnd : rv.likes.Nodup) :
    (uid ∉ rv.likes →
      toggleLikes rv.likes uid = rv.likes ++ [uid] ∧
      (toggleLikeReview db uid rid).1 = Except.ok ("Review liked", rv.likes.length + 1)) ∧
    (uid ∈ rv.likes →
      toggleLikes rv.likes uid = rv.likes.erase uid ∧
      uid ∉ toggleLikes rv.likes uid ∧
      (toggleLikeReview db uid rid).1 =
        Except.ok ("Review unliked", rv.likes.length - 1)) ∧
    (toggleLikes (toggleLikes rv.likes uid) uid).Perm rv.likes ∧
    ((toggleLikeReview (toggleLikeReview db uid rid).2 uid rid).1 =
      Except.ok ((if uid ∈ rv.likes then "Review liked" else "Review unliked"),
        rv.likes.length)) ∧
    ((toggleLikeReview (toggleLikeReview db uid rid).2 uid rid).2.reviews.find?
        (fun r => r.id == rid) =
      some { rv with likes := toggleLikes (toggleLikes rv.likes uid) uid }) := by
  have hfind1 := toggleLikeReview_found_find? db uid rid rv hfind
  have habsent : uid ∉ rv.likes → toggleLikes rv.likes uid = rv.likes ++ [uid] := by
    intro hm
    simp [toggleLikes, hm]
  have hpresent : uid ∈ rv.likes → toggleLikes rv.likes uid = rv.likes.erase uid := by
    intro hm
    simp [toggleLikes, hm]
  have hperm : (toggleLikes (toggleLikes rv.likes uid) uid).Perm rv.likes := by
    by_cases hm : uid ∈ rv.likes
    · rw [hpresent hm]
      have hno : uid ∉ rv.likes.erase uid := List.Nodup.not_mem_erase hnd
      rw [show toggleLikes (rv.likes.erase uid) uid = rv.likes.erase uid ++ [uid] by
        simp [toggleLikes, hno]]
      exact (List.perm_append_singleton uid (rv.likes.erase uid)).trans
        (List.perm_cons_erase hm).symm
    · rw [habsent hm]
      have hmem : uid ∈ rv.likes ++ [uid] := by simp
      rw [show toggleLikes (rv.likes ++ [uid]) uid = (rv.likes ++ [uid]).erase uid by
        simp [toggleLikes, hmem]]
      rw [List.erase_append_right _ hm]
      simp
  refine ⟨?_, ?_, hperm, ?_, ?_⟩
  · intro hm
    refine ⟨habsent hm, ?_⟩
    rw [toggleLikeReview_found db uid rid rv hfind]
    simp [hm, habsent hm]
  · intro hm
    refine ⟨hpresent hm, ?_, ?_⟩
    · rw [hpresent hm]
      exact List.Nodup.not_mem_erase hnd
    · rw [toggleLikeReview_found db uid rid rv hfind]
      simp [hm, hpresent hm, List.length_erase_of_mem hm]
  · rw [toggleLikeReview_found (toggleLikeReview db uid rid).2 uid rid
      { rv with likes := toggleLikes rv.likes uid } hfind1]
    dsimp only
    by_cases hm : uid ∈ rv.likes
    · have hno : uid ∉ toggleLikes rv.likes uid := by
        rw [hpresent hm]
        exact List.Nodup.not_mem_erase hnd
      simp [hm, hno, hperm.length_eq]
    · have hyes : uid ∈ toggleLikes rv.likes uid := by
        rw [habsent hm]
        simp
      simp [hm, hyes, hperm.length_eq]
  · have h2 := toggleLikeReview_found_find? (toggleLikeReview db uid rid).2 uid rid
      { rv with likes := toggleLikes rv.likes uid } hfind1
    exact h2

/-- Witness for C3: toggling user 7's like on a review whose like list is [7]
twice returns the like list to a permutation of [7]. -/
theorem C3_toggleLike_involutive_witness :
    (w3DB.reviews.find? (fun r => r.id == 1) = some w3Review) ∧ w3Review.likes.Nodup ∧
      (toggleLikes (toggleLikes w3Review.likes 7) 7).Perm w3Review.likes :=
  ⟨by decide, by decide,
    (C3_toggleLike_involutive w3DB 7 1 w3Review (by decide) (by decide)).2.2.1⟩

/-- C6: every ownership-gated mutation — updateBook, deleteBook, updateReview,
deleteReview — fails with the 403 Forbidden response and leaves the database
(in particular the review store) unchanged when the acting identity differs
from the entity's creator/author reference. -/
theorem C6_ownership_forbidden (db : DB) (uid bookId reviewId : Nat) (b : Book)
    (rv : Review) (bbody : BookBody) (rbody : ReviewBody)
    (hb : db.books.find? (fun x => x.id == bookId) = some b) (hbown : b.createdBy ≠ uid)
    (hr : db.reviews.find? (fun x => x.id == reviewId) = some rv) (hrown : rv.userId ≠ uid) :
    updateBook db uid bookId bbody =
      (Except.error ⟨403, "You can only update books you created"⟩, db) ∧
    deleteBook db uid bookId =
      (Except.error ⟨403, "You can only delete books you created"⟩, db) ∧
    updateReview db uid reviewId rbody =
      (Except.error ⟨403, "You can only update your own reviews"⟩, db) ∧
    deleteReview db uid reviewId =
      (Except.error ⟨403, "You can only delete your own reviews"⟩, db) := by
  have hbb : (b.createdBy != uid) = true := by simpa using hbown
  have hrb : (rv.userId != uid) = true := by simpa using hrown
  refine ⟨?_, ?_, ?_, ?_⟩
  · unfold updateBook
    rw [hb]
    dsimp only
    rw [if_pos hbb]
  · unfold deleteBook
    rw [hb]
    dsimp only
    rw [if_pos hbb]
  · unfold updateReview
    rw [hr]
    dsimp only
    rw [if_pos hrb]
  · unfold deleteReview
    rw [hr]
    dsimp only
    rw [if_pos hrb]

/-- Witness for C6: user 2 attempts to delete user 1's review and is refused,
the review store unchanged. -/
theorem C6_ownership_forbidden_witness :
    (w1DB.books.find? (fun x => x.id == 1) = some w1Book) ∧ w1Book.createdBy ≠ 2 ∧
    (w1DB.reviews.find? (fun x => x.id == 1) = some w1Review) ∧ w1Review.userId ≠ 2 ∧
    deleteReview w1DB 2 1 =
      (Except.error ⟨403, "You can only delete your own reviews"⟩, w1DB) :=
  ⟨by decide, by decide, by decide, by decide,
    (C6_ownership_forbidden w1DB 2 1 1 w1Book w1Review
      ⟨none, none, none, none, none, none⟩ ⟨none, none⟩
      (by decide) (by decide) (by decide) (by decide)).2.2.2⟩

/-- C8: login produces the identical Unauthorized response — same status and
same message — for an email belonging to no user and for a known email whose
password comparison fails, so a failing response does not reveal whether the
email is registered. -/
theorem C8_login_no_enumeration (db : DB) (e1 p1 e2 p2 : String) (u : User)
    (h1 : ∀ x ∈ db.users, x.email ≠ e1)
    (h2 : db.users.find? (fun x => x.email == e2) = some u)
    (h3 : comparePassword u p2 = false) :
    login db e1 p1 = Except.error ⟨401, "Invalid email or password"⟩ ∧
    login db e2 p2 = Except.error ⟨401, "Invalid email or password"⟩ ∧
    login db e1 p1 = login db e2 p2 := by
  have hf : db.users.find? (fun x => x.email == e1) = none := by
    rw [List.find?_eq_none]
    intro x hx
    simp [h1 x hx]
  have hl1 : login db e1 p1 = Except.error ⟨401, "Invalid email or password"⟩ := by
    unfold login
    rw [hf]
  have hl2 : login db e2 p2 = Except.error ⟨401, "Invalid email or password"⟩ := by
    unfold login
    rw [h2]
    dsimp only
    rw [if_neg (by simp [h3])]
  exact ⟨hl1, hl2, hl1.trans hl2.symm⟩

/-- Witness for C8: an unregistered email and a registered email with a wrong
password produce the same response. -/
theorem C8_login_no_enumeration_witness :
    (∀ x ∈ w1DB.users, x.email ≠ "bob@example.com") ∧
    (w1DB.users.find? (fun x => x.email == "alice@example.com") = some w1User) ∧
    comparePassword w1User "wrong" = false ∧
    login w1DB "bob@example.com" "anything" = login w1DB "alice@example.com" "wrong" :=
  ⟨by decide, by decide, by decide,
    (C8_login_no_enumeration w1DB "bob@example.com" "anything" "alice@example.com"
      "wrong" w1User (by decide) (by decide) (by decide)).2.2⟩

/-- C10: a successful updateBook returns the merged book and stores it in
place; the merge leaves averageRating, totalReviews and createdBy unchanged;
each of title, author, genre, description and publicationDate keeps its stored
value when the request field is absent or the empty string and is overwritten
otherwise; isbn is overwritten whenever the field is present, the empty string
included, and kept only when absent. -/
theorem C10_updateBook_frame (db : DB) (uid bookId : Nat) (b : Book) (body : BookBody)
    (hb : db.books.find? (fun x => x.id == bookId) = some b) (hown : b.createdBy = uid) :
    (updateBook db uid bookId body).1 = Except.ok (applyBookBody b body) ∧
    (applyBookBody b body).averageRating = b.averageRating ∧
    (applyBookBody b body).totalReviews = b.totalReviews ∧
    (applyBookBody b body).createdBy = b.createdBy ∧
    ((body.title = none ∨ body.title = some "") → (applyBookBody b body).title = b.title) ∧
    (∀ s, body.title = some s → s ≠ "" → (applyBookBody b body).title = s) ∧
    ((body.author = none ∨ body.author = some "") →
      (applyBookBody b body).author = b.author) ∧
    (∀ s, body.author = some s → s ≠ "" → (applyBookBody b body).author = s) ∧
    ((body.genre = none ∨ body.genre = some "") → (applyBookBody b body).genre = b.genre) ∧
    (∀ s, body.genre = some s → s ≠ "" → (applyBookBody b body).genre = s) ∧
    ((body.description = none ∨ body.description = some "") →
      (applyBookBody b body).description = b.description) ∧
    (∀ s, body.description = some s → s ≠ "" → (applyBookBody b body).description = s) ∧
    ((body.publicationDate = none ∨ body.publicationDate = some "") →
      (applyBookBody b body).publicationDate = b.publicationDate) ∧
    (∀ s, body.publicationDate = some s → s ≠ "" →
      (applyBookBody b body).publicationDate = s) ∧
    (body.isbn = none → (applyBookBody b body).isbn = b.isbn) ∧
    (∀ s, body.isbn = some s → (applyBookBody b body).isbn = s) ∧
    (updateBook db uid bookId body).2.books.find? (fun x => x.id == bookId) =
      some (applyBookBody b body) := by
  have hbid0 := List.find?_some hb
  have hbid : (b.id == bookId) = true := hbid0
  have hnot : ¬((b.createdBy != uid) = true) := by simp [hown]
  have hok : updateBook db uid bookId body =
      (Except.ok (applyBookBody b body),
        { db with books := db.books.map (fun x =>
            if x.id == bookId then applyBookBody b body else x) }) := by
    unfold updateBook
    rw [hb]
    dsimp only
    rw [if_neg hnot]
  have hp : ∀ x : Book,
      ((if (x.id == bookId) = true then applyBookBody b body else x).id == bookId) =
        (x.id == bookId) := by
    intro x
    by_cases hx : (x.id == bookId) = true
    · simpa [hx, applyBookBody] using hbid
    · simp [hx]
  refine ⟨by rw [hok], rfl, rfl, rfl, ?_, ?_, ?_, ?_, ?_, ?_, ?_, ?_, ?_, ?_, ?_, ?_, ?_⟩
  · rintro (h | h) <;> simp [applyBookBody, jsOrStr, h]
  · intro s h hs
    simp [applyBookBody, jsOrStr, h, hs]
  · rintro (h | h) <;> simp [applyBookBody, jsOrStr, h]
  · intro s h hs
    simp [applyBookBody, jsOrStr, h, hs]
  · rintro (h | h) <;> simp [applyBookBody, jsOrStr, h]
  · intro s h hs
    simp [applyBookBody, jsOrStr, h, hs]
  · rintro (h | h) <;> simp [applyBookBody, jsOrStr, h]
  · intro s h hs
    simp [applyBookBody, jsOrStr, h, hs]
  · rintro (h | h) <;> simp [applyBookBody, jsOrStr, h]
  · intro s h hs
    simp [applyBookBody, jsOrStr, h, hs]
  · intro h
    simp [applyBookBody, jsIfDef, h]
  · intro s h
    simp [applyBookBody, jsIfDef, h]
  · rw [hok]
    dsimp only
    have h := find?_map_update db.books (fun x => x.id == bookId)
      (fun x => if x.id == bookId then applyBookBody b body else x) hp b hb
    dsimp only at h
    rw [if_pos hbid] at h
    exact h

/-- Witness for C10: updating book 1 with an empty title, an absent author and
an empty (present) isbn keeps title and author and clears isbn, leaving the
aggregate pair and the creator untouched. -/
theorem C10_updateBook_frame_witness :
    (w1DB.books.find? (fun x => x.id == 1) = some w1Book) ∧ w1Book.createdBy = 1 ∧
      ((applyBookBody w1Book ⟨some "", none, none, none, none, some ""⟩).title =
          w1Book.title ∧
        (applyBookBody w1Book ⟨some "", none, none, none, none, some ""⟩).averageRating =
          w1Book.averageRating) :=
  ⟨by decide, by decide,
    ⟨(C10_updateBook_frame w1DB 1 1 w1Book ⟨some "", none, none, none, none, some ""⟩
        (by decide) (by decide)).2.2.2.2.1 (Or.inr rfl),
      (C10_updateBook_frame w1DB 1 1 w1Book ⟨some "", none, none, none, none, some ""⟩
        (by decide) (by decide)).2.1⟩⟩

/-- C5 counterexample: a book titled a+ by author b is stored and the
identical title and author are submitted again, yet createBook inserts a
second copy instead of failing with the duplicate error — the pattern ^a+$
built from the raw title does not match the literal string a+. -/
theorem C5_createBook_counterexample :
    (ciStrEq c5Inp.title c5Book.title = true ∧ ciStrEq c5Inp.author c5Book.author = true ∧
      c5DB.books = [c5Book]) ∧
    (createBook c5DB 2 c5Inp 2 1).1.isOk = true ∧
    (createBook c5DB 2 c5Inp 2 1).2.books.length = 2 := by
  decide

/-- C5 amended: the duplicate check compares the stored title and author
against the submitted strings as case-insensitive regular expressions, which
coincides with case-insensitive string equality exactly when the submitted
strings are free of regex metacharacters.  For metacharacter-free input: if a
case-insensitively equal title/author pair is stored, createBook fails with
the duplicate error (the spec's Conflict, HTTP 400 here) and inserts nothing;
otherwise it appends exactly one book whose averageRating is 0 and
totalReviews is 0. -/
theorem C5_createBook_amended (db : DB) (uid freshId now : Nat) (inp : BookInput)
    (ht : regexLiteral inp.title = true) (ha : regexLiteral inp.author = true) :
    ((∃ b ∈ db.books, ciStrEq inp.title b.title = true ∧ ciStrEq inp.author b.author = true) →
      createBook db uid inp freshId now =
        (Except.error ⟨400, "A book with this title and author already exists"⟩, db)) ∧
    ((∀ b ∈ db.books,
        ¬(ciStrEq inp.title b.title = true ∧ ciStrEq inp.author b.author = true)) →
      (createBook db uid inp freshId now).1 =
        Except.ok { id := freshId, title := inp.title, author := inp.author
                    genre := inp.genre, description := inp.description
                    publicationDate := inp.publicationDate, isbn := inp.isbn
                    createdBy := uid, averageRating := 0, totalReviews := 0
                    createdAt := now } ∧
      (createBook db uid inp freshId now).2.books =
        db.books ++ [{ id := freshId, title := inp.title, author := inp.author
                       genre := inp.genre, description := inp.description
                       publicationDate := inp.publicationDate, isbn := inp.isbn
                       createdBy := uid, averageRating := 0, totalReviews := 0
                       createdAt := now }]) := by
  unfold createBook
  rw [dupBookCheck_literal db.books inp.title inp.author ht ha]
  constructor
  · intro hex
    have hf : (db.books.find? (fun b =>
        ciStrEq inp.title b.title && ciStrEq inp.author b.author)).isSome = true := by
      rw [List.find?_isSome]
      obtain ⟨b, hb, h1, h2⟩ := hex
      exact ⟨b, hb, by simp [h1, h2]⟩
    rw [hf]
  · intro hall
    have hf : (db.books.find? (fun b =>
        ciStrEq inp.title b.title && ciStrEq inp.author b.author)).isSome = false := by
      rw [Bool.eq_false_iff, Ne, List.find?_isSome]
      rintro ⟨b, hb, hp⟩
      simp only [Bool.and_eq_true] at hp
      exact hall b hb ⟨hp.1, hp.2⟩
    rw [hf]
    exact ⟨rfl, rfl⟩

/-- Witness for C5 amended: resubmitting the stored metacharacter-free pair
(Cat, A) is refused with the duplicate error and no change. -/
theorem C5_createBook_amended_witness :
    regexLiteral "Cat" = true ∧ regexLiteral "A" = true ∧
      (∃ b ∈ c9DB.books, ciStrEq "Cat" b.title = true ∧ ciStrEq "A" b.author = true) ∧
      createBook c9DB 5 ⟨"Cat", "A", "g", "d", "2000-01-01", ""⟩ 2 1 =
        (Except.error ⟨400, "A book with this title and author already exists"⟩, c9DB) :=
  ⟨by decide, by decide, by decide,
    (C5_createBook_amended c9DB 5 2 1 ⟨"Cat", "A", "g", "d", "2000-01-01", ""⟩
      (by decide) (by decide)).1 (by decide)⟩

/-- C9: the duplicate-book check is regular-expression matching on the raw
request strings, not literal comparison: submitting the title C.t with author
A is refused as a duplicate of the stored book Cat by A although the titles
differ, and a title holding an unbalanced parenthesis makes the pattern
construction throw, surfaced as the internal-error response, instead of
comparing. -/
theorem C9_createBook_regex_check :
    c9Inp.title ≠ c9Book.title ∧
    createBook c9DB 5 c9Inp 7 1 =
      (Except.error ⟨400, "A book with this title and author already exists"⟩, c9DB) ∧
    (parsePat c9BadInp.title).isSome = false ∧
    createBook c9DB 5 c9BadInp 7 1 =
      (Except.error ⟨500, "Internal server error while creating book"⟩, c9DB) := by
  decide

/-- C7 counterexample: the search term x.z is not a case-insensitive
substring of the stored title xyz or author qq, yet a type-both search
returns that book — the term is interpreted as a regular expression by the
store, not as a literal substring. -/
theorem C7_search_counterexample :
    ciSubstrB "x.z" "xyz" = false ∧ ciSubstrB "x.z" "qq" = false ∧
    c7DB.books = [c7Book] ∧ c7Book.title = "xyz" ∧ c7Book.author = "qq" ∧
    (searchBooks c7DB (some "x.z") "both" none none).map (fun o => o.results) =
      Except.ok [c7Book] := by
  decide

/-- C7 amended: search fails with 400 when the term is absent or empty; for
type both a stored book matches when the raw term matches its title or its
author as a case-insensitive regular expression — which coincides with
case-insensitive substring containment exactly for metacharacter-free terms;
every returned page holds only matching stored books, is ordered by
averageRating descending with ties broken by createdAt descending, and comes
with the total matching count and hasNext/hasPrev derived from page and
totalPages. -/
theorem C7_search_amended (db : DB) (term : String) (g : List RAtom)
    (type : String) (qpage qlimit : Option Nat) (out : SearchOut) :
    (searchBooks db none type qpage qlimit =
      Except.error ⟨400, "Search term is required"⟩) ∧
    (searchBooks db (some "") type qpage qlimit =
      Except.error ⟨400, "Search term is required"⟩) ∧
    (term ≠ "" → parsePat term = some g →
      searchBooks db (some term) "both" qpage qlimit = Except.ok out →
      ((∀ b ∈ out.results, b ∈ db.books ∧
          (someMatch (patFuel term b.title.data) g b.title.data ||
            someMatch (patFuel term b.author.data) g b.author.data) = true) ∧
        out.pagination.total = (db.books.filter (fun b =>
          someMatch (patFuel term b.title.data) g b.title.data ||
            someMatch (patFuel term b.author.data) g b.author.data)).length ∧
        List.Pairwise searchRank out.results ∧
        (out.pagination.hasNext = true ↔
          out.pagination.currentPage < out.pagination.totalPages) ∧
        (out.pagination.hasPrev = true ↔ 1 < out.pagination.currentPage))) ∧
    (regexLiteral term = true → parsePat term = some g →
      ∀ t : String, someMatch (patFuel term t.data) g t.data = ciSubstrB term t) := by
  refine ⟨?_, ?_, ?_, ?_⟩
  · unfold searchBooks
    rfl
  · unfold searchBooks
    rfl
  · intro hne hg hout
    have hev : searchBooks db (some term) "both" qpage qlimit =
        Except.ok
          { results := (( List.insertionSort searchRank (db.books.filter (fun b =>
                someMatch (patFuel term b.title.data) g b.title.data ||
                  someMatch (patFuel term b.author.data) g b.author.data))).drop
              ((jsNumOr qpage 1 - 1) * jsNumOr qlimit 10)).take (jsNumOr qlimit 10)
            pagination := mkPageMeta (jsNumOr qpage 1) (jsNumOr qlimit 10)
              (db.books.filter (fun b =>
                someMatch (patFuel term b.title.data) g b.title.data ||
                  someMatch (patFuel term b.author.data) g b.author.data)).length } := by
      unfold searchBooks
      dsimp only
      rw [if_neg hne, hg]
      dsimp only
      rw [if_neg (by decide : ¬("both" = "title")), if_neg (by decide : ¬("both" = "author"))]
    rw [hev] at hout
    have hrec := Except.ok.inj hout
    subst hrec
    refine ⟨?_, rfl, ?_, by simp [mkPageMeta], by simp [mkPageMeta]⟩
    · intro b hb
      have hb2 := List.mem_of_mem_drop (List.mem_of_mem_take hb)
      have hb3 := (List.perm_insertionSort searchRank _).mem_iff.mp hb2
      have hb4 := List.mem_filter.mp hb3
      exact ⟨hb4.1, hb4.2⟩
    · have hsorted := List.sorted_insertionSort searchRank (db.books.filter (fun b =>
        someMatch (patFuel term b.title.data) g b.title.data ||
          someMatch (patFuel term b.author.data) g b.author.data))
      exact hsorted.sublist ((List.take_sublist _ _).trans (List.drop_sublist _ _))
  · intro hlit hg t
    have hg2 := parsePat_literal term hlit
    rw [hg] at hg2
    have hgg := Option.some.inj hg2
    subst hgg
    have hf := length_lt_patFuel term t.data
    cases hb : ciSubstrB term t with
    | false =>
      rw [Bool.eq_false_iff]
      intro hcon
      have hinf := (someMatch_lit term.data t.data _ hf).mp hcon
      have : ciSubstrB term t = true := by
        unfold ciSubstrB
        exact decide_eq_true hinf
      rw [hb] at this
      cases this
    | true =>
      have hinf : List.IsInfix (term.data.map Char.toLower) (t.data.map Char.toLower) := by
        unfold ciSubstrB at hb
        exact of_decide_eq_true hb
      exact (someMatch_lit term.data t.data _ hf).mpr hinf

/-- Witness for C7 amended: the metacharacter-free term xyz matches exactly as
a case-insensitive substring. -/
theorem C7_search_amended_witness :
    ("xyz" : String) ≠ "" ∧ regexLiteral "xyz" = true ∧
      parsePat "xyz" = some ("xyz".data.map RAtom.ch) ∧
      someMatch (patFuel "xyz" "abcXYZ".data) ("xyz".data.map RAtom.ch) "abcXYZ".data =
        ciSubstrB "xyz" "abcXYZ" :=
  ⟨by decide, by decide, parsePat_literal "xyz" (by decide),
    (C7_search_amended c7DB "xyz" ("xyz".data.map RAtom.ch) "both" none none
      ⟨[], mkPageMeta 1 10 0⟩).2.2.2 (by decide) (parsePat_literal "xyz" (by decide))
      "abcXYZ"⟩

theorem ceilDiv_le_iff (total limit n : Nat) (hl : 1 ≤ limit) :
    ceilDiv total limit ≤ n ↔ total ≤ n * limit := by
  unfold ceilDiv
  rw [Nat.div_le_iff_le_mul_add_pred hl, Nat.mul_comm limit n]
  omega

/-- C4 counterexample: GET /api/books/:id mounts no pagination validator on
its nested review list — a request with reviewLimit 200 against a book with
101 stored reviews is served one page carrying limit 200 and all 101 reviews,
so that listing's limit is not capped at 100. -/
theorem C4_pagination_counterexample :
    c4DB.reviews.length = 101 ∧
    (getBookById c4DB 1 (some 1) (some 200)).map
      (fun o => (o.reviewsPagination.limit, o.reviews.length)) =
      Except.ok (200, 101) := by
  decide

/-- C4 amended: the shared pagination block computes totalPages as the
rounded-up quotient — the least page count whose pages cover the total —
hasNext exactly when page < totalPages, hasPrev exactly when page > 1, with
page 1-indexed; the limit defaults to 10 on the book list and 5 on the nested
review list; for limit 10 and total 25 there are 3 pages, pages 1 and 2 hold
10 items, page 3 holds 5, and hasNext is false only on page 3.  The 100-cap
on limit is enforced by the pagination validator, which is mounted only on
the book-list and search routes; the nested review list of getBookById is
served uncapped. -/
theorem C4_pagination_amended (db : DB) (page limit total p bookId : Nat) (b : Book)
    (qpage qlimit : Option Nat) (qauthor qgenre : Option String)
    (q : Option String) (type : String)
    (outA : List Book × PageMeta) (outS : SearchOut) :
    (1 ≤ limit →
      ((mkPageMeta page limit total).totalPages = ceilDiv total limit ∧
        (∀ n, ceilDiv total limit ≤ n ↔ total ≤ n * limit) ∧
        ((mkPageMeta page limit total).hasNext = true ↔ page < ceilDiv total limit) ∧
        ((mkPageMeta page limit total).hasPrev = true ↔ 1 < page))) ∧
    ((getAllBooks db none none none none).map (fun o => o.2.limit) = Except.ok 10) ∧
    (db.books.find? (fun x => x.id == bookId) = some b →
      (getBookById db bookId none none).map (fun o => o.reviewsPagination.limit) =
        Except.ok 5) ∧
    (getAllBooksRoute db qpage qlimit qauthor qgenre = Except.ok outA →
      outA.2.limit ≤ 100) ∧
    (searchBooksRoute db q type qpage qlimit = Except.ok outS →
      outS.pagination.limit ≤ 100) ∧
    (db.books.length = 25 → 1 ≤ p → p ≤ 3 →
      (getAllBooks db (some p) none none none).map
          (fun o => (o.1.length, o.2.totalPages, o.2.hasNext)) =
        Except.ok ((if p = 3 then 5 else 10), 3, decide (p < 3))) := by
  have hlimq : validatePagination qpage qlimit = true → jsNumOr qlimit 10 ≤ 100 := by
    intro hv
    unfold validatePagination at hv
    rw [Bool.and_eq_true] at hv
    cases qlimit with
    | none => simp [jsNumOr]
    | some l =>
      have h2 := hv.2
      simp only [Option.all_some, Bool.and_eq_true, decide_eq_true_eq] at h2
      unfold jsNumOr
      dsimp only
      by_cases hl0 : l = 0
      · rw [if_pos hl0]; omega
      · rw [if_neg hl0]; exact h2.2
  refine ⟨?_, ?_, ?_, ?_, ?_, ?_⟩
  · intro hl
    refine ⟨rfl, fun n => ceilDiv_le_iff total limit n hl, ?_, ?_⟩
    · simp [mkPageMeta]
    · simp [mkPageMeta]
  · rfl
  · intro hfind
    unfold getBookById
    dsimp only
    rw [hfind]
    rfl
  · intro hout
    unfold getAllBooksRoute at hout
    by_cases hv : validatePagination qpage qlimit = true
    · rw [if_pos hv] at hout
      have hlim := hlimq hv
      unfold getAllBooks at hout
      cases hf1 : filterByField db.books (fun b => b.author) qauthor with
      | none => rw [hf1] at hout; simp at hout
      | some l1 =>
        rw [hf1] at hout
        dsimp only at hout
        cases hf2 : filterByField l1 (fun b => b.genre) qgenre with
        | none => rw [hf2] at hout; simp at hout
        | some l2 =>
          rw [hf2] at hout
          dsimp only at hout
          have := Except.ok.inj hout
          rw [← this]
          exact hlim
    · rw [if_neg hv] at hout
      simp at hout
  · intro hout
    unfold searchBooksRoute at hout
    by_cases hv : validatePagination qpage qlimit = true
    · rw [if_pos hv] at hout
      have hlim := hlimq hv
      unfold searchBooks at hout
      cases q with
      | none => simp at hout
      | some term =>
        dsimp only at hout
        by_cases hne : term = ""
        · rw [if_pos hne] at hout; simp at hout
        · rw [if_neg hne] at hout
          cases hg : parsePat term with
          | none => rw [hg] at hout; simp at hout
          | some g =>
            rw [hg] at hout
            dsimp only at hout
            have := Except.ok.inj hout
            rw [← this]
            exact hlim
    · rw [if_neg hv] at hout
      simp at hout
  · intro hlen hp1 hp3
    have hpv : jsNumOr (some p) 1 = p := by
      unfold jsNumOr
      dsimp only
      rw [if_neg (by omega : ¬ p = 0)]
    have hev : getAllBooks db (some p) none none none =
        Except.ok ((( List.insertionSort newestFirst db.books).drop
            ((jsNumOr (some p) 1 - 1) * 10)).take 10,
          mkPageMeta (jsNumOr (some p) 1) 10 db.books.length) := by
      unfold getAllBooks filterByField
      rfl
    rw [hev]
    simp only [Except.map, hpv, hlen]
    have hlen2 : (( List.insertionSort newestFirst db.books).drop ((p - 1) * 10)).length =
        25 - (p - 1) * 10 := by
      rw [List.length_drop, List.length_insertionSort, hlen]
    refine congrArg Except.ok ?_
    refine Prod.ext ?_ (Prod.ext ?_ ?_)
    · show (((( List.insertionSort newestFirst db.books).drop ((p - 1) * 10)).take 10).length) = _
      rw [List.length_take, hlen2]
      interval_cases p <;> simp
    · show ceilDiv 25 10 = 3
      decide
    · show decide (p < ceilDiv 25 10) = decide (p < 3)
      norm_num [ceilDiv]

/-- Witness for C4 amended: with 25 stored books and limit 10, page 3 serves
5 items, there are 3 pages, and hasNext is false. -/
theorem C4_pagination_amended_witness :
    c4wDB.books.length = 25 ∧ (1 : Nat) ≤ 3 ∧ (3 : Nat) ≤ 3 ∧
      (getAllBooks c4wDB (some 3) none none none).map
          (fun o => (o.1.length, o.2.totalPages, o.2.hasNext)) =
        Except.ok (5, 3, false) :=
  ⟨by decide, by decide, by decide, by
    have h := (C4_pagination_amended c4wDB 1 10 25 3 1 c4Book none none none none
      none "both" ([], mkPageMeta 1 10 0) ⟨[], mkPageMeta 1 10 0⟩).2.2.2.2.2
      (by decide) (by decide) (by decide)
    simpa using h⟩

end BookReviewAPI
